import Mathlib

/-!
Shallow embedding of the Cordle game engine
(src/townService/src/town/games/CordleGame.ts) and the parts of its public
interface needed to settle the specification claims.

Modelling conventions:
* TypeScript optional fields (`player1?: PlayerID`) become `Option`; the
  JavaScript strict equality `===` on such values becomes equality of
  `Option` values (`undefined === undefined` is `true`, matching
  `none = none`).
* JavaScript truthiness tests on player ids and on `winner` are modelled as
  `isSome` / `= none`; player ids are opaque non-empty strings, for which the
  two notions coincide.
* The mutable `this.state` is threaded explicitly.  A method that can throw
  is embedded as `CordleGame -> Except (Err × CordleGame) CordleGame`; the
  error payload carries the state as it stands at the moment of the throw,
  which is how JavaScript exception semantics can expose partial mutation.
* The random word draw (`_selectRandomWord`, a file read plus `Math.random`)
  is the one source of nondeterminism; `startGame` therefore takes the word
  the provider would return for each difficulty as an explicit argument.
* Letter erasure in the scoring copy (`cordleCopy[i] = ''` in the source)
  is modelled by `Option Char` entries, `none` standing for the erased
  one-letter string `''` (a guess character never equals `''`, and
  `indexOf` never finds it, exactly as `none` never matches `some c`).
-/

inductive GameStatus where
  | waitingForPlayers
  | waitingToStart
  | inProgress
  | over
deriving DecidableEq, Repr

inductive CordlePlayerNumber where
  | player1
  | player2
deriving DecidableEq, Repr

inductive CordleDifficulty where
  | easy
  | medium
  | hard
deriving DecidableEq, Repr

inductive CordleCell where
  | green
  | yellow
  | gray
deriving DecidableEq, Repr

abbrev PlayerID := String

structure CordleGuess where
  player : PlayerID
  guessedWord : List Char
  guessNumber : Nat
deriving DecidableEq, Repr

structure CordleGameState where
  status : GameStatus
  player1 : Option PlayerID := none
  player2 : Option PlayerID := none
  player1Ready : Bool := false
  player2Ready : Bool := false
  firstPlayer : CordlePlayerNumber
  difficulty : Option CordleDifficulty := none
  cordle : Option (List Char) := none
  guesses : List CordleGuess := []
  guessesEvaluated : List (Option (List CordleCell)) := []
  winner : Option PlayerID := none
deriving DecidableEq, Repr

structure CordleGame where
  preferredPlayer1 : Option PlayerID := none
  preferredPlayer2 : Option PlayerID := none
  state : CordleGameState
deriving DecidableEq, Repr

inductive Err where
  | playerAlreadyInGame
  | gameFull
  | playerNotInGame
  | gameNotStartable
  | gameNotInProgress
  | moveNotYourTurn
  | unexpectedStatus
deriving DecidableEq, Repr

abbrev GRes := Except (Err × CordleGame) CordleGame

/-- Equality of operation results is decidable (both components are). -/
def decEqGRes : (a b : GRes) → Decidable (a = b)
  | .error a, .error b =>
    if h : a = b then .isTrue (by rw [h]) else .isFalse (fun hh => h (by injection hh))
  | .error _, .ok _ => .isFalse (fun hh => Except.noConfusion hh)
  | .ok _, .error _ => .isFalse (fun hh => Except.noConfusion hh)
  | .ok a, .ok b =>
    if h : a = b then .isTrue (by rw [h]) else .isFalse (fun hh => h (by injection hh))

instance : DecidableEq GRes := decEqGRes

/-- Source helper `getOtherPlayerNumber`. -/
def getOtherPlayerNumber : CordlePlayerNumber → CordlePlayerNumber
  | .player2 => .player1
  | .player1 => .player2

/-- The `CordleGame` constructor: copies the prior instance's slot occupants
as preferred ids and initialises `firstPlayer` to the opposite of the prior
instance's `firstPlayer` (the `|| 'Player2'` default makes it `Player1` when
there is no prior instance). -/
def newCordleGame (priorGame : Option CordleGame) : CordleGame :=
  { preferredPlayer1 := priorGame.bind (fun q => q.state.player1)
    preferredPlayer2 := priorGame.bind (fun q => q.state.player2)
    state :=
      { status := .waitingForPlayers
        firstPlayer := getOtherPlayerNumber ((priorGame.map (fun q => q.state.firstPlayer)).getD .player2)
        guesses := []
        guessesEvaluated := []
        cordle := none
        difficulty := none } }

/-! ## Scoring (`_applyGuess`, first and second pass) -/

/-- First pass of `_applyGuess`: position `i` is `Green` when
`guess[i] === cordleCopy[i]` and that copy entry is erased; otherwise the
position is tentatively `Gray`.  Returns the color row together with the copy
as the loop leaves it (positions beyond the guess are untouched; when the
copy is shorter than the guess the comparison with the undefined entry
fails). -/
def pass1 : List Char → List (Option Char) → List CordleCell × List (Option Char)
  | [], copy => ([], copy)
  | _ :: gs, [] =>
    let r := pass1 gs []
    (CordleCell.gray :: r.1, r.2)
  | a :: gs, b :: bs =>
    if b = some a then
      let r := pass1 gs bs
      (CordleCell.green :: r.1, none :: r.2)
    else
      let r := pass1 gs bs
      (CordleCell.gray :: r.1, b :: r.2)

/-- `cordleCopy.indexOf(c)` followed by erasing the found entry:
`none` when the letter does not occur. -/
def eraseFirst (a : Char) : List (Option Char) → Option (List (Option Char))
  | [] => none
  | b :: bs =>
    if b = some a then some (none :: bs)
    else (eraseFirst a bs).map (fun l => b :: l)

/-- Second pass of `_applyGuess`: every position still `Gray` whose guess
letter has a remaining occurrence in the copy becomes `Yellow`, consuming the
leftmost such occurrence. -/
def pass2 : List Char → List CordleCell → List (Option Char) → List CordleCell
  | a :: gs, col :: cols, copy =>
    if col = CordleCell.gray then
      match eraseFirst a copy with
      | some copy2 => CordleCell.yellow :: pass2 gs cols copy2
      | none => CordleCell.gray :: pass2 gs cols copy
    else col :: pass2 gs cols copy
  | _, _, _ => []

/-- The color row `_applyGuess` computes for a guess against the secret. -/
def scoreGuess (secret guess : List Char) : List CordleCell :=
  let r := pass1 guess (secret.map some)
  pass2 guess r.1 r.2

/-! ## Game operations -/

/-- Slot assignment of `_join` (the four-way preferred/first-empty cascade);
`none` when both slots are occupied (`GAME_FULL`). -/
def joinAssign (p : PlayerID) (g : CordleGame) : Option CordleGameState :=
  if g.preferredPlayer1 = some p ∧ g.state.player1 = none then
    some { g.state with status := .waitingForPlayers, player1 := some p }
  else if g.preferredPlayer2 = some p ∧ g.state.player2 = none then
    some { g.state with status := .waitingForPlayers, player2 := some p }
  else if g.state.player1 = none then
    some { g.state with status := .waitingForPlayers, player1 := some p }
  else if g.state.player2 = none then
    some { g.state with status := .waitingForPlayers, player2 := some p }
  else none

/-- Trailing status update of `_join`: once both slots are filled the status
becomes `WAITING_TO_START`. -/
def finishJoin (s : CordleGameState) : CordleGameState :=
  if s.player1.isSome ∧ s.player2.isSome then { s with status := .waitingToStart } else s

/-- Outcome of `_join` once the slot cascade has run: a full game throws
`GAME_FULL`, otherwise the trailing status update applies. -/
def joinFinish : Option CordleGameState → CordleGame → GRes
  | none, g => .error (.gameFull, g)
  | some s, g => .ok { g with state := finishJoin s }

/-- `CordleGame._join`; the public `Game.join` delegates to it. -/
def join (p : PlayerID) (g : CordleGame) : GRes :=
  if g.state.player1 = some p ∨ g.state.player2 = some p then
    .error (.playerAlreadyInGame, g)
  else joinFinish (joinAssign p g) g

/-- Second ready-flag assignment at the top of `startGame`. -/
def markReady2 (p : PlayerID) (s : CordleGameState) : CordleGameState :=
  if s.player2 = some p then { s with player2Ready := true } else s

/-- The two ready-flag assignments at the top of `startGame`. -/
def markReady (p : PlayerID) (s : CordleGameState) : CordleGameState :=
  markReady2 p (if s.player1 = some p then { s with player1Ready := true } else s)

/-- The `firstPlayer` recomputation in `startGame`: forced to `Player1`
unless the preferred slot-1 id equals the current slot-1 occupant or the
preferred slot-2 id equals the current slot-2 occupant (strict `===` on
possibly-undefined values). -/
def recomputeFirst (g : CordleGame) (s : CordleGameState) : CordleGameState :=
  if g.preferredPlayer1 = s.player1 ∨ g.preferredPlayer2 = s.player2 then s
  else { s with firstPlayer := .player1 }

/-- The word the provider returns for the selected difficulty;
with no difficulty set, none of the three branches runs and
`selectedCordle` stays the empty string. -/
def selectedWord (draw : CordleDifficulty → List Char) (s : CordleGameState) : List Char :=
  match s.difficulty with
  | some d => draw d
  | none => []

/-- The word-draw step of `startGame`: when the caller occupies the slot
designated as `firstPlayer`, the drawn word is uppercased and stored. -/
def drawPhase (draw : CordleDifficulty → List Char) (p : PlayerID) (s : CordleGameState) :
    CordleGameState :=
  if (s.firstPlayer = .player1 ∧ some p = s.player1) ∨
      (s.firstPlayer = .player2 ∧ some p = s.player2) then
    { s with cordle := some ((selectedWord draw s).map Char.toUpper) }
  else s

/-- The closing status update of `startGame` inside the both-players-present
block. -/
def setStartStatus (s : CordleGameState) : CordleGameState :=
  { s with status := if s.player1Ready ∧ s.player2Ready then .inProgress else .waitingToStart }

/-- The `if (this.state.player1 && this.state.player2)` block of
`startGame`: with both slots occupied the draw phase and the closing status
update run; otherwise the state is left as the ready/recompute steps made
it. -/
def startBoth (draw : CordleDifficulty → List Char) (p : PlayerID) (s : CordleGameState)
    (g : CordleGame) : GRes :=
  if s.player1.isSome ∧ s.player2.isSome then
    .ok { g with state := setStartStatus (drawPhase draw p s) }
  else
    .ok { g with state := s }

/-- `CordleGame.startGame`, with the word provider passed explicitly. -/
def startGame (draw : CordleDifficulty → List Char) (p : PlayerID) (g : CordleGame) : GRes :=
  if g.state.status = .waitingToStart then
    if g.state.player1 = some p ∨ g.state.player2 = some p then
      startBoth draw p (recomputeFirst g (markReady p g.state)) g
    else .error (.playerNotInGame, g)
  else .error (.gameNotStartable, g)

/-- `CordleGame.setDifficultyLevel`. -/
def setDifficultyLevel (difficulty : CordleDifficulty) (g : CordleGame) : CordleGame :=
  { g with state := { g.state with difficulty := some difficulty } }

/-- The `removePlayer` closure inside `_leave`: vacates the caller's slot and
clears its ready flag, reporting which slot was vacated; `none` when the
caller occupies neither slot (`PLAYER_NOT_IN_GAME`). -/
def removePlayerFrom (p : PlayerID) (s : CordleGameState) :
    Option (CordlePlayerNumber × CordleGameState) :=
  if s.player1 = some p then
    some (.player1, { s with player1 := none, player1Ready := false })
  else if s.player2 = some p then
    some (.player2, { s with player2 := none, player2Ready := false })
  else none

/-- The `switch (this.state.status)` at the end of `_leave`, with the status
being switched on passed explicitly; the `over` case is the source's
unreachable `default` branch (`throw new Error('Unexpected game status')`). -/
def leaveSwitch : GameStatus → CordlePlayerNumber → CordleGameState → CordleGame → GRes
  | .waitingToStart, _, s, g => .ok { g with state := { s with status := .waitingForPlayers } }
  | .waitingForPlayers, _, s, g => .ok { g with state := { s with status := .waitingForPlayers } }
  | .inProgress, playerLeft, s, g =>
    .ok { g with state :=
      { s with status := .over,
               winner := if playerLeft = .player1 then s.player2 else s.player1 } }
  | .over, _, s, g => .error (.unexpectedStatus, { g with state := s })

/-- Result of the `removePlayer` closure fed into the final `switch`. -/
def leaveRemoved : Option (CordlePlayerNumber × CordleGameState) → CordleGame → GRes
  | none, g => .error (.playerNotInGame, g)
  | some (playerLeft, s), g => leaveSwitch s.status playerLeft s g

/-- `CordleGame._leave`. -/
def leaveGame (p : PlayerID) (g : CordleGame) : GRes :=
  if g.state.status = .over then .ok g
  else leaveRemoved (removePlayerFrom p g.state) g

/-- Modelled from the spec: the generic game base class (`Game`, not present
under src/) exposes the public `leave`, which per section 4.1 of the spec
"fails with PlayerNotInGame if the player occupies neither slot" before the
concrete game's `_leave` runs.  Membership is validated against the two
slots, as the spec words it. -/
def leave (p : PlayerID) (g : CordleGame) : GRes :=
  if g.state.player1 = some p ∨ g.state.player2 = some p then leaveGame p g
  else .error (.playerNotInGame, g)

/-- `CordleGame.whoseTurn`. -/
def whoseTurn (g : CordleGame) : CordlePlayerNumber :=
  match g.state.firstPlayer with
  | .player1 => if g.state.guesses.length % 2 = 0 then .player1 else .player2
  | .player2 => if g.state.guesses.length % 2 = 0 then .player2 else .player1

/-- JavaScript array element assignment `arr[i] = v` on an array that may be
shorter than `i`: existing elements are overwritten, missing ones appear as
holes (`none`). -/
def jsSet {α : Type} : List (Option α) → Nat → α → List (Option α)
  | [], 0, x => [some x]
  | [], n + 1, x => none :: jsSet [] n x
  | _ :: bs, 0, x => some x :: bs
  | b :: bs, n + 1, x => b :: jsSet bs n x

/-- The all-green check of `_applyGuess`: a fully green row ends the game
with the guessing player as winner. -/
def checkWin (m : CordleGuess) (colors : List CordleCell) (s : CordleGameState) :
    CordleGameState :=
  if colors.all (fun c => c = CordleCell.green) then
    { s with status := .over, winner := some m.player }
  else s

/-- The guess-limit check of `_applyGuess`: six or more guesses with no
winner force `OVER` with the `'DRAW'` sentinel. -/
def checkDraw (s : CordleGameState) : CordleGameState :=
  if 6 ≤ s.guesses.length ∧ s.winner = none then
    { s with status := .over, winner := some "DRAW" }
  else s

/-- `CordleGame._applyGuess` on the state: append the guess, score it
against `this.state.cordle ?? ''`, store the row at `guessNumber - 1`, then
run the win and draw checks. -/
def applyGuessState (m : CordleGuess) (s : CordleGameState) : CordleGameState :=
  checkDraw (checkWin m (scoreGuess (s.cordle.getD []) m.guessedWord)
    { s with
        guesses := s.guesses ++ [m],
        guessesEvaluated :=
          jsSet s.guessesEvaluated (m.guessNumber - 1)
            (scoreGuess (s.cordle.getD []) m.guessedWord) })

/-- `CordleGame._applyGuess`. -/
def applyGuess (m : CordleGuess) (g : CordleGame) : CordleGame :=
  { g with state := applyGuessState m g.state }

/-- `CordleGame.applyMove` (the `GameMove` wrapper's `gameID`/`playerID`
fields are dispatcher-level and unused by the method). -/
def applyMove (m : CordleGuess) (g : CordleGame) : GRes :=
  if g.state.status = .inProgress then
    if (if whoseTurn g = .player1 then g.state.player1 else g.state.player2) = some m.player then
      .ok (applyGuess m g)
    else .error (.moveNotYourTurn, g)
  else .error (.gameNotInProgress, g)

/-! ## Auxiliary definitions used by the claim statements -/

/-- Projects the game out of an operation result; on an error this is the
state carried by the exception (per the JavaScript semantics, the state as it
stood at the throw). -/
def gameOf : GRes → CordleGame
  | .ok g => g
  | .error e => e.2

/-- Whether a slot occupant matches a preferred id: both present and equal. -/
def occupantMatches (occ pref : Option PlayerID) : Bool :=
  match occ, pref with
  | some a, some b => a = b
  | _, _ => false

/-- Stated from the claim's words (for comparison with the source's
condition): "neither current slot occupant matches either preferred id
carried over from construction". -/
def specFreshPairing (g : CordleGame) : Bool :=
  !(occupantMatches g.state.player1 g.preferredPlayer1 ||
    occupantMatches g.state.player1 g.preferredPlayer2 ||
    occupantMatches g.state.player2 g.preferredPlayer1 ||
    occupantMatches g.state.player2 g.preferredPlayer2)

/-- `evaluatedRows[i]` is defined: index `i` exists and is not a hole. -/
def rowDefined (g : CordleGame) (i : Nat) : Prop :=
  ∃ r, g.state.guessesEvaluated.get? i = some (some r)

/-- Alignment invariant between `guesses` and `guessesEvaluated`. -/
def BoardInv (g : CordleGame) : Prop :=
  g.state.guessesEvaluated.length = g.state.guesses.length ∧
  ∀ r ∈ g.state.guessesEvaluated, r.isSome

/-- States reachable by sequences of the public operations in which every
accepted guess carries `guessNumber = guesses.length + 1` (the discipline the
client controller follows when it builds a move from `guessCount + 1`). -/
inductive ReachWF : CordleGame → Prop where
  | init : ReachWF (newCordleGame none)
  | rematch {g : CordleGame} : ReachWF g → ReachWF (newCordleGame (some g))
  | join_ok {g g2 : CordleGame} {p : PlayerID} :
      ReachWF g → join p g = .ok g2 → ReachWF g2
  | leave_ok {g g2 : CordleGame} {p : PlayerID} :
      ReachWF g → leave p g = .ok g2 → ReachWF g2
  | setDiff {g : CordleGame} {d : CordleDifficulty} :
      ReachWF g → ReachWF (setDifficultyLevel d g)
  | start_ok {g g2 : CordleGame} {p : PlayerID} {draw : CordleDifficulty → List Char} :
      ReachWF g → startGame draw p g = .ok g2 → ReachWF g2
  | move_ok {g g2 : CordleGame} {m : CordleGuess} :
      ReachWF g → m.guessNumber = g.state.guesses.length + 1 →
      applyMove m g = .ok g2 → ReachWF g2

/-! ## Concrete runs used by counterexamples and witnesses -/

/-- A five-letter throwaway guess. -/
def mkGuess (p : PlayerID) (n : Nat) : CordleGuess :=
  { player := p, guessedWord := "XXXXX".toList, guessNumber := n }

/-- Fresh game joined by players `A` and `B`. -/
def twoJoined : CordleGame := gameOf (join "A" (newCordleGame none) >>= join "B")

/-- `A` and `B` joined and both ready: an `IN_PROGRESS` game (no difficulty
was selected, so the stored secret is the uppercased empty string). -/
def inProgressGame : CordleGame :=
  gameOf (join "A" (newCordleGame none) >>= join "B"
    >>= startGame (fun _ => []) "A" >>= startGame (fun _ => []) "B")

/-- C2 run: `A` and `B` join, difficulty `Easy`, then `A` (the designated
first player) readies up while the provider would hand out `apple`. -/
def c2Ready : CordleGame :=
  gameOf (Except.map (setDifficultyLevel .easy) (join "A" (newCordleGame none) >>= join "B")
    >>= startGame (fun _ => "apple".toList) "A")

/-- C2 run continued: the already-ready `A` calls `start` again while the
provider would now hand out `bread`. -/
def c2Repeat : CordleGame := gameOf (startGame (fun _ => "bread".toList) "A" c2Ready)

/-- C2 churn run: the prior game for a rematch, joined by `P` and `Q`. -/
def c2ChurnPrior : CordleGame := gameOf (join "P" (newCordleGame none) >>= join "Q")

/-- C2 churn run: the rematch instance (preferred ids `P`/`Q`, alternating
default `Player2`) is joined by newcomer `X` (slot 1) and returning `Q`
(slot 2, a preferred match, so the recomputation leaves `firstPlayer` at
`Player2`); `X` readies up (no draw: slot 1 is not designated), `Q` leaves,
and newcomer `R` joins.  The result: a `WAITING_TO_START` game with `X`
ready, `firstPlayer` still `Player2` and no secret word stored. -/
def c2ChurnReady : CordleGame :=
  gameOf (Except.map (setDifficultyLevel .easy)
      (join "X" (newCordleGame (some c2ChurnPrior)) >>= join "Q")
    >>= startGame (fun _ => "apple".toList) "X"
    >>= leave "Q" >>= join "R")

/-- C3 run: the prior game, with `A` in slot 1 and `B` in slot 2. -/
def c3Prior : CordleGame := twoJoined

/-- C3 run: rematch instance built from the prior game (preferred ids `A`
and `B`, alternating default `Player2`), joined by newcomer `C` (slot 1) and
returning player `A` (slot 2) — a cross-slot preferred match. -/
def c3Joined : CordleGame :=
  gameOf (join "C" (newCordleGame (some c3Prior)) >>= join "A")

/-- C6 run: a full game revived after an in-play leave — five guesses, `A`
leaves (making `B` the winner), `C` joins the over game, readies up, and the
stale board accepts guesses six and seven. -/
def c6Trace : GRes :=
  join "A" (newCordleGame none) >>= join "B"
    >>= startGame (fun _ => []) "A" >>= startGame (fun _ => []) "B"
    >>= applyMove (mkGuess "A" 1) >>= applyMove (mkGuess "B" 2)
    >>= applyMove (mkGuess "A" 3) >>= applyMove (mkGuess "B" 4)
    >>= applyMove (mkGuess "A" 5)
    >>= leave "A" >>= join "C" >>= startGame (fun _ => []) "C"
    >>= applyMove (mkGuess "B" 6) >>= applyMove (mkGuess "C" 7)

/-- C7 run: a first guess carrying `guessNumber = 2` instead of `1`. -/
def c7Trace : GRes :=
  join "A" (newCordleGame none) >>= join "B"
    >>= startGame (fun _ => []) "A" >>= startGame (fun _ => []) "B"
    >>= applyMove { player := "A", guessedWord := "HELLO".toList, guessNumber := 2 }

/-- C7 witness run, step 1: `A` joins a fresh game. -/
def c7Step1 : CordleGame := gameOf (join "A" (newCordleGame none))

/-- C7 witness run, step 2: `B` joins. -/
def c7Step2 : CordleGame := gameOf (join "B" c7Step1)

/-- C7 witness run, step 3: `A` readies up. -/
def c7Step3 : CordleGame := gameOf (startGame (fun _ => []) "A" c7Step2)

/-- C7 witness run, step 4: `B` readies up; the game is in progress. -/
def c7Step4 : CordleGame := gameOf (startGame (fun _ => []) "B" c7Step3)

/-- C7 witness run: one well-numbered guess applied to the running game. -/
def c7WfGame : CordleGame := gameOf (applyMove (mkGuess "A" 1) c7Step4)

/-- C5 witness: an in-progress game, slot-2 first, one guess made. -/
def c5GameA : CordleGame :=
  { state := { status := .inProgress, firstPlayer := .player2,
               player1 := some "A", player2 := some "B",
               guesses := [{ player := "A", guessedWord := [], guessNumber := 1 }] } }

/-- C5 witness: a very different state agreeing with `c5GameA` only on
`firstPlayer` and on the number of guesses. -/
def c5GameB : CordleGame :=
  { state := { status := .over, firstPlayer := .player2,
               player1 := some "X", player2 := none, winner := some "X",
               guesses := [{ player := "Q", guessedWord := "Z".toList, guessNumber := 9 }] } }

/-! ## Counting infrastructure for the duplicate-letter property -/

/-- Number of occurrences of the letter `c` in a word. -/
def countLetter (c : Char) : List Char → Nat
  | [] => 0
  | b :: bs => (if b = c then 1 else 0) + countLetter c bs

/-- Number of un-erased occurrences of the letter `c` in a working copy. -/
def countSome (c : Char) : List (Option Char) → Nat
  | [] => 0
  | b :: bs => (if b = some c then 1 else 0) + countSome c bs

/-- Number of positions whose guess letter is `c` and whose cell is a hit
(`Green` or `Yellow`). -/
def hitCount (c : Char) : List Char → List CordleCell → Nat
  | [], _ => 0
  | _ :: _, [] => 0
  | a :: gs, col :: cols =>
    (if a = c ∧ col ≠ CordleCell.gray then 1 else 0) + hitCount c gs cols

theorem countSome_map_some (c : Char) : ∀ S : List Char, countSome c (S.map some) = countLetter c S
  | [] => rfl
  | b :: bs => by
    simp only [List.map_cons, countSome, countLetter, Option.some.injEq,
      countSome_map_some c bs]

theorem eraseFirst_some_count (a c : Char) :
    ∀ {l l2 : List (Option Char)}, eraseFirst a l = some l2 →
      countSome c l = countSome c l2 + (if a = c then 1 else 0) := by
  intro l
  induction l with
  | nil => intro l2 h; simp [eraseFirst] at h
  | cons b bs ih =>
    intro l2 h
    by_cases hb : b = some a
    · rw [eraseFirst, if_pos hb] at h
      cases h
      subst hb
      simp only [countSome, Option.some.injEq]
      by_cases hac : a = c <;> simp [hac, Nat.add_comm]
    · rw [eraseFirst, if_neg hb] at h
      rcases Option.map_eq_some'.mp h with ⟨bs2, hbs2, rfl⟩
      simp only [countSome, ih hbs2, Nat.add_assoc]

theorem eraseFirst_none_count (a : Char) :
    ∀ {l : List (Option Char)}, eraseFirst a l = none → countSome a l = 0 := by
  intro l
  induction l with
  | nil => intro _; rfl
  | cons b bs ih =>
    intro h
    by_cases hb : b = some a
    · rw [eraseFirst, if_pos hb] at h; cases h
    · rw [eraseFirst, if_neg hb] at h
      rw [countSome, if_neg hb, ih (Option.map_eq_none'.mp h)]

theorem pass1_hit (c : Char) :
    ∀ (g : List Char) (copy : List (Option Char)),
      hitCount c g (pass1 g copy).1 + countSome c (pass1 g copy).2 ≤ countSome c copy := by
  intro g
  induction g with
  | nil => intro copy; simp [pass1, hitCount]
  | cons a gs ih =>
    intro copy
    cases copy with
    | nil =>
      simp only [pass1, hitCount, ne_eq, not_true_eq_false, and_false, if_false,
        Nat.zero_add]
      exact ih []
    | cons b bs =>
      by_cases hb : b = some a
      · rw [pass1, if_pos hb]
        simp only [hitCount, countSome, ne_eq]
        subst hb
        have := ih bs
        by_cases hac : a = c <;> simp [hac] <;> omega
      · rw [pass1, if_neg hb]
        simp only [hitCount, countSome, ne_eq, not_true_eq_false, and_false, if_false,
          Nat.zero_add]
        have := ih bs
        omega

theorem pass2_hit (c : Char) :
    ∀ (g : List Char) (colors : List CordleCell) (copy : List (Option Char)),
      hitCount c g (pass2 g colors copy) ≤ hitCount c g colors + countSome c copy := by
  intro g
  induction g with
  | nil => intro colors copy; simp [pass2, hitCount]
  | cons a gs ih =>
    intro colors copy
    cases colors with
    | nil => simp [pass2, hitCount]
    | cons col cols =>
      by_cases hcol : col = CordleCell.gray
      · rw [pass2, if_pos hcol]
        cases he : eraseFirst a copy with
        | some copy2 =>
          simp only [hitCount, ne_eq]
          have hcount := eraseFirst_some_count a c he
          have := ih cols copy2
          subst hcol
          by_cases hac : a = c <;> simp [hac] at hcount ⊢ <;> omega
        | none =>
          simp only [hitCount, ne_eq]
          have := ih cols copy
          subst hcol
          simp only [not_true_eq_false, and_false, if_false, Nat.zero_add]
          omega
      · rw [pass2, if_neg hcol]
        simp only [hitCount, ne_eq]
        have := ih cols copy
        omega

theorem pass1_length : ∀ (g : List Char) (copy : List (Option Char)),
    (pass1 g copy).1.length = g.length := by
  intro g
  induction g with
  | nil => intro copy; simp [pass1]
  | cons a gs ih =>
    intro copy
    cases copy with
    | nil => simp [pass1, ih]
    | cons b bs =>
      by_cases hb : b = some a
      · rw [pass1, if_pos hb]; simp [ih]
      · rw [pass1, if_neg hb]; simp [ih]

theorem pass2_length : ∀ (g : List Char) (colors : List CordleCell) (copy : List (Option Char)),
    colors.length = g.length → (pass2 g colors copy).length = g.length := by
  intro g
  induction g with
  | nil => intro colors copy _; simp [pass2]
  | cons a gs ih =>
    intro colors copy hlen
    cases colors with
    | nil => simp at hlen
    | cons col cols =>
      simp only [List.length_cons, Nat.succ.injEq] at hlen
      by_cases hcol : col = CordleCell.gray
      · rw [pass2, if_pos hcol]
        cases he : eraseFirst a copy with
        | some copy2 => simp [ih cols copy2 hlen]
        | none => simp [ih cols copy hlen]
      · rw [pass2, if_neg hcol]; simp [ih cols copy hlen]

theorem scoreGuess_hit_bound (c : Char) (S G : List Char) :
    hitCount c G (scoreGuess S G) ≤ countLetter c S := by
  show hitCount c G (pass2 G (pass1 G (S.map some)).1 (pass1 G (S.map some)).2) ≤ countLetter c S
  have h2 := pass2_hit c G (pass1 G (S.map some)).1 (pass1 G (S.map some)).2
  have h1 := pass1_hit c G (S.map some)
  rw [countSome_map_some] at h1
  omega

theorem scoreGuess_length (S G : List Char) : (scoreGuess S G).length = G.length := by
  unfold scoreGuess
  exact pass2_length G _ _ (pass1_length G (S.map some))

/-! ## Field-preservation lemmas for the operation helpers -/

@[simp] theorem markReady_player1 (p : PlayerID) (s : CordleGameState) :
    (markReady p s).player1 = s.player1 := by
  unfold markReady markReady2; split_ifs <;> rfl

@[simp] theorem markReady_player2 (p : PlayerID) (s : CordleGameState) :
    (markReady p s).player2 = s.player2 := by
  unfold markReady markReady2; split_ifs <;> rfl

@[simp] theorem markReady_firstPlayer (p : PlayerID) (s : CordleGameState) :
    (markReady p s).firstPlayer = s.firstPlayer := by
  unfold markReady markReady2; split_ifs <;> rfl

@[simp] theorem markReady_status (p : PlayerID) (s : CordleGameState) :
    (markReady p s).status = s.status := by
  unfold markReady markReady2; split_ifs <;> rfl

@[simp] theorem markReady_guesses (p : PlayerID) (s : CordleGameState) :
    (markReady p s).guesses = s.guesses := by
  unfold markReady markReady2; split_ifs <;> rfl

@[simp] theorem markReady_guessesEvaluated (p : PlayerID) (s : CordleGameState) :
    (markReady p s).guessesEvaluated = s.guessesEvaluated := by
  unfold markReady markReady2; split_ifs <;> rfl

@[simp] theorem markReady_cordle (p : PlayerID) (s : CordleGameState) :
    (markReady p s).cordle = s.cordle := by
  unfold markReady markReady2; split_ifs <;> rfl

@[simp] theorem markReady_difficulty (p : PlayerID) (s : CordleGameState) :
    (markReady p s).difficulty = s.difficulty := by
  unfold markReady markReady2; split_ifs <;> rfl

@[simp] theorem markReady_winner (p : PlayerID) (s : CordleGameState) :
    (markReady p s).winner = s.winner := by
  unfold markReady markReady2; split_ifs <;> rfl

@[simp] theorem recomputeFirst_player1 (g : CordleGame) (s : CordleGameState) :
    (recomputeFirst g s).player1 = s.player1 := by
  unfold recomputeFirst; split_ifs <;> rfl

@[simp] theorem recomputeFirst_player2 (g : CordleGame) (s : CordleGameState) :
    (recomputeFirst g s).player2 = s.player2 := by
  unfold recomputeFirst; split_ifs <;> rfl

@[simp] theorem recomputeFirst_status (g : CordleGame) (s : CordleGameState) :
    (recomputeFirst g s).status = s.status := by
  unfold recomputeFirst; split_ifs <;> rfl

@[simp] theorem recomputeFirst_ready1 (g : CordleGame) (s : CordleGameState) :
    (recomputeFirst g s).player1Ready = s.player1Ready := by
  unfold recomputeFirst; split_ifs <;> rfl

@[simp] theorem recomputeFirst_ready2 (g : CordleGame) (s : CordleGameState) :
    (recomputeFirst g s).player2Ready = s.player2Ready := by
  unfold recomputeFirst; split_ifs <;> rfl

@[simp] theorem recomputeFirst_guesses (g : CordleGame) (s : CordleGameState) :
    (recomputeFirst g s).guesses = s.guesses := by
  unfold recomputeFirst; split_ifs <;> rfl

@[simp] theorem recomputeFirst_guessesEvaluated (g : CordleGame) (s : CordleGameState) :
    (recomputeFirst g s).guessesEvaluated = s.guessesEvaluated := by
  unfold recomputeFirst; split_ifs <;> rfl

@[simp] theorem recomputeFirst_cordle (g : CordleGame) (s : CordleGameState) :
    (recomputeFirst g s).cordle = s.cordle := by
  unfold recomputeFirst; split_ifs <;> rfl

@[simp] theorem recomputeFirst_difficulty (g : CordleGame) (s : CordleGameState) :
    (recomputeFirst g s).difficulty = s.difficulty := by
  unfold recomputeFirst; split_ifs <;> rfl

@[simp] theorem recomputeFirst_winner (g : CordleGame) (s : CordleGameState) :
    (recomputeFirst g s).winner = s.winner := by
  unfold recomputeFirst; split_ifs <;> rfl

theorem recomputeFirst_firstPlayer (g : CordleGame) (s : CordleGameState) :
    (recomputeFirst g s).firstPlayer =
      if g.preferredPlayer1 = s.player1 ∨ g.preferredPlayer2 = s.player2 then s.firstPlayer
      else .player1 := by
  unfold recomputeFirst; split_ifs <;> rfl

@[simp] theorem drawPhase_player1 (draw : CordleDifficulty → List Char) (p : PlayerID)
    (s : CordleGameState) : (drawPhase draw p s).player1 = s.player1 := by
  unfold drawPhase; split_ifs <;> rfl

@[simp] theorem drawPhase_player2 (draw : CordleDifficulty → List Char) (p : PlayerID)
    (s : CordleGameState) : (drawPhase draw p s).player2 = s.player2 := by
  unfold drawPhase; split_ifs <;> rfl

@[simp] theorem drawPhase_status (draw : CordleDifficulty → List Char) (p : PlayerID)
    (s : CordleGameState) : (drawPhase draw p s).status = s.status := by
  unfold drawPhase; split_ifs <;> rfl

@[simp] theorem drawPhase_ready1 (draw : CordleDifficulty → List Char) (p : PlayerID)
    (s : CordleGameState) : (drawPhase draw p s).player1Ready = s.player1Ready := by
  unfold drawPhase; split_ifs <;> rfl

@[simp] theorem drawPhase_ready2 (draw : CordleDifficulty → List Char) (p : PlayerID)
    (s : CordleGameState) : (drawPhase draw p s).player2Ready = s.player2Ready := by
  unfold drawPhase; split_ifs <;> rfl

@[simp] theorem drawPhase_firstPlayer (draw : CordleDifficulty → List Char) (p : PlayerID)
    (s : CordleGameState) : (drawPhase draw p s).firstPlayer = s.firstPlayer := by
  unfold drawPhase; split_ifs <;> rfl

@[simp] theorem drawPhase_guesses (draw : CordleDifficulty → List Char) (p : PlayerID)
    (s : CordleGameState) : (drawPhase draw p s).guesses = s.guesses := by
  unfold drawPhase; split_ifs <;> rfl

@[simp] theorem drawPhase_guessesEvaluated (draw : CordleDifficulty → List Char) (p : PlayerID)
    (s : CordleGameState) : (drawPhase draw p s).guessesEvaluated = s.guessesEvaluated := by
  unfold drawPhase; split_ifs <;> rfl

@[simp] theorem drawPhase_difficulty (draw : CordleDifficulty → List Char) (p : PlayerID)
    (s : CordleGameState) : (drawPhase draw p s).difficulty = s.difficulty := by
  unfold drawPhase; split_ifs <;> rfl

@[simp] theorem drawPhase_winner (draw : CordleDifficulty → List Char) (p : PlayerID)
    (s : CordleGameState) : (drawPhase draw p s).winner = s.winner := by
  unfold drawPhase; split_ifs <;> rfl

@[simp] theorem setStartStatus_player1 (s : CordleGameState) :
    (setStartStatus s).player1 = s.player1 := rfl

@[simp] theorem setStartStatus_player2 (s : CordleGameState) :
    (setStartStatus s).player2 = s.player2 := rfl

@[simp] theorem setStartStatus_firstPlayer (s : CordleGameState) :
    (setStartStatus s).firstPlayer = s.firstPlayer := rfl

@[simp] theorem setStartStatus_ready1 (s : CordleGameState) :
    (setStartStatus s).player1Ready = s.player1Ready := rfl

@[simp] theorem setStartStatus_ready2 (s : CordleGameState) :
    (setStartStatus s).player2Ready = s.player2Ready := rfl

@[simp] theorem setStartStatus_guesses (s : CordleGameState) :
    (setStartStatus s).guesses = s.guesses := rfl

@[simp] theorem setStartStatus_guessesEvaluated (s : CordleGameState) :
    (setStartStatus s).guessesEvaluated = s.guessesEvaluated := rfl

@[simp] theorem setStartStatus_cordle (s : CordleGameState) :
    (setStartStatus s).cordle = s.cordle := rfl

@[simp] theorem setStartStatus_difficulty (s : CordleGameState) :
    (setStartStatus s).difficulty = s.difficulty := rfl

@[simp] theorem setStartStatus_winner (s : CordleGameState) :
    (setStartStatus s).winner = s.winner := rfl

@[simp] theorem finishJoin_player1 (s : CordleGameState) :
    (finishJoin s).player1 = s.player1 := by
  unfold finishJoin; split_ifs <;> rfl

@[simp] theorem finishJoin_player2 (s : CordleGameState) :
    (finishJoin s).player2 = s.player2 := by
  unfold finishJoin; split_ifs <;> rfl

@[simp] theorem finishJoin_guesses (s : CordleGameState) :
    (finishJoin s).guesses = s.guesses := by
  unfold finishJoin; split_ifs <;> rfl

@[simp] theorem finishJoin_guessesEvaluated (s : CordleGameState) :
    (finishJoin s).guessesEvaluated = s.guessesEvaluated := by
  unfold finishJoin; split_ifs <;> rfl

@[simp] theorem checkWin_guesses (m : CordleGuess) (colors : List CordleCell)
    (s : CordleGameState) : (checkWin m colors s).guesses = s.guesses := by
  unfold checkWin; split_ifs <;> rfl

@[simp] theorem checkWin_guessesEvaluated (m : CordleGuess) (colors : List CordleCell)
    (s : CordleGameState) : (checkWin m colors s).guessesEvaluated = s.guessesEvaluated := by
  unfold checkWin; split_ifs <;> rfl

@[simp] theorem checkDraw_guesses (s : CordleGameState) :
    (checkDraw s).guesses = s.guesses := by
  unfold checkDraw; split_ifs <;> rfl

@[simp] theorem checkDraw_guessesEvaluated (s : CordleGameState) :
    (checkDraw s).guessesEvaluated = s.guessesEvaluated := by
  unfold checkDraw; split_ifs <;> rfl

/-! ## Operation-level lemmas -/

theorem joinAssign_state {p : PlayerID} {g : CordleGame} {s : CordleGameState}
    (h : joinAssign p g = some s) :
    s.guesses = g.state.guesses ∧ s.guessesEvaluated = g.state.guessesEvaluated := by
  unfold joinAssign at h
  split_ifs at h <;> (injection h with h; subst h; exact ⟨rfl, rfl⟩)

theorem join_board {p : PlayerID} {g g2 : CordleGame} (h : join p g = .ok g2) :
    g2.state.guesses = g.state.guesses ∧
    g2.state.guessesEvaluated = g.state.guessesEvaluated := by
  unfold join at h
  split_ifs at h
  cases hj : joinAssign p g with
  | none => rw [hj] at h; exact Except.noConfusion h
  | some s =>
    rw [hj] at h
    simp only [joinFinish] at h
    injection h with h
    subst h
    have := joinAssign_state hj
    simpa using this

theorem removePlayerFrom_state {p : PlayerID} {s0 : CordleGameState}
    {n : CordlePlayerNumber} {s : CordleGameState}
    (h : removePlayerFrom p s0 = some (n, s)) :
    s.status = s0.status ∧ s.guesses = s0.guesses ∧
    s.guessesEvaluated = s0.guessesEvaluated ∧ s.winner = s0.winner := by
  unfold removePlayerFrom at h
  split_ifs at h <;>
    (injection h with h; injection h with h1 h2; subst h2; exact ⟨rfl, rfl, rfl, rfl⟩)

theorem leave_board {p : PlayerID} {g g2 : CordleGame} (h : leave p g = .ok g2) :
    g2.state.guesses = g.state.guesses ∧
    g2.state.guessesEvaluated = g.state.guessesEvaluated := by
  unfold leave at h
  split_ifs at h
  unfold leaveGame at h
  split_ifs at h with ho
  · injection h with h; subst h; exact ⟨rfl, rfl⟩
  · cases hr : removePlayerFrom p g.state with
    | none => rw [hr] at h; exact Except.noConfusion h
    | some q =>
      obtain ⟨n, s⟩ := q
      rw [hr] at h
      obtain ⟨hst, hg, hge, hw⟩ := removePlayerFrom_state hr
      simp only [leaveRemoved] at h
      cases hs : s.status
      all_goals rw [hs] at h
      all_goals simp only [leaveSwitch] at h
      · injection h with h; subst h; exact ⟨hg, hge⟩
      · injection h with h; subst h; exact ⟨hg, hge⟩
      · injection h with h; subst h; exact ⟨hg, hge⟩
      · exact Except.noConfusion h

theorem start_board {draw : CordleDifficulty → List Char} {p : PlayerID} {g g2 : CordleGame}
    (h : startGame draw p g = .ok g2) :
    g2.state.guesses = g.state.guesses ∧
    g2.state.guessesEvaluated = g.state.guessesEvaluated := by
  unfold startGame startBoth at h
  split_ifs at h <;> (injection h with h; subst h; simp)

theorem applyMove_ok {m : CordleGuess} {g g2 : CordleGame} (h : applyMove m g = .ok g2) :
    g2 = applyGuess m g ∧ g.state.status = .inProgress := by
  unfold applyMove at h
  split_ifs at h <;> (injection h with h; exact ⟨h.symm, by assumption⟩)

theorem jsSet_append {α : Type} : ∀ (l : List (Option α)) (x : α),
    jsSet l l.length x = l ++ [some x] := by
  intro l x
  induction l with
  | nil => rfl
  | cons b bs ih => simpa [jsSet] using ih

/-! ## The board-alignment invariant -/

theorem boardInv_move {m : CordleGuess} {g g2 : CordleGame}
    (hinv : BoardInv g) (hn : m.guessNumber = g.state.guesses.length + 1)
    (h : applyMove m g = .ok g2) : BoardInv g2 := by
  obtain ⟨happ, -⟩ := applyMove_ok h
  subst happ
  obtain ⟨hlen, hsome⟩ := hinv
  unfold applyGuess applyGuessState
  constructor
  · simp only [BoardInv, checkDraw_guesses, checkDraw_guessesEvaluated, checkWin_guesses,
      checkWin_guessesEvaluated]
    rw [hn]
    simp only [Nat.add_sub_cancel, ← hlen, jsSet_append]
    simp [hlen]
  · intro r hr
    simp only [checkDraw_guessesEvaluated, checkWin_guessesEvaluated] at hr
    rw [hn] at hr
    simp only [Nat.add_sub_cancel, ← hlen, jsSet_append, List.mem_append,
      List.mem_singleton] at hr
    rcases hr with hr | hr
    · exact hsome r hr
    · subst hr; rfl

theorem reachWF_boardInv {g : CordleGame} (h : ReachWF g) : BoardInv g := by
  induction h with
  | init => exact ⟨rfl, by intro r hr; cases hr⟩
  | rematch _ _ => exact ⟨rfl, by intro r hr; cases hr⟩
  | join_ok _ hok ih =>
    obtain ⟨hg, hge⟩ := join_board hok
    exact ⟨by rw [hg, hge, ih.1], by rw [hge]; exact ih.2⟩
  | leave_ok _ hok ih =>
    obtain ⟨hg, hge⟩ := leave_board hok
    exact ⟨by rw [hg, hge, ih.1], by rw [hge]; exact ih.2⟩
  | setDiff _ ih => exact ih
  | start_ok _ hok ih =>
    obtain ⟨hg, hge⟩ := start_board hok
    exact ⟨by rw [hg, hge, ih.1], by rw [hge]; exact ih.2⟩
  | move_ok _ hn hok ih => exact boardInv_move ih hn hok

theorem boardInv_defined {g : CordleGame} (h : BoardInv g) (i : Nat) :
    rowDefined g i ↔ i < g.state.guesses.length := by
  obtain ⟨hlen, hsome⟩ := h
  rw [← hlen]
  constructor
  · rintro ⟨r, hr⟩
    by_contra hge
    rw [List.get?_eq_none.mpr (Nat.le_of_not_lt hge)] at hr
    exact Option.noConfusion hr
  · intro hi
    have hv := List.get?_eq_get hi
    have hmem := List.get_mem g.state.guessesEvaluated i hi
    obtain ⟨r, hr⟩ := Option.isSome_iff_exists.mp (hsome _ hmem)
    exact ⟨r, by rw [hv, hr]⟩

/-- Empty guessed word: both scoring passes run zero iterations. -/
theorem scoreGuess_nil (secret : List Char) : scoreGuess secret [] = [] := rfl

/-- C1: for a secret word and a guess of the same length, the scoring step is
the two-pass consume-on-match computation embedded from the source as
`scoreGuess` (first pass `pass1`: positional matches go Green and erase the
copy entry; second pass `pass2`: remaining Gray positions consume the
leftmost remaining occurrence to go Yellow).  Consequently each secret letter
occurrence yields at most one Green/Yellow hit — the number of non-Gray cells
whose guess letter is `c` never exceeds the number of `c`s in the secret —
the row has one cell per guess position, and secret SATIN versus guess TOOTH
scores [Yellow, Gray, Gray, Gray, Gray]. -/
theorem c1_scoring_two_pass (S G : List Char) (hlen : S.length = G.length) :
    (∀ c : Char, hitCount c G (scoreGuess S G) ≤ countLetter c S) ∧
    (scoreGuess S G).length = G.length ∧
    scoreGuess "SATIN".toList "TOOTH".toList =
      [CordleCell.yellow, .gray, .gray, .gray, .gray] := by
  refine ⟨fun c => scoreGuess_hit_bound c S G, scoreGuess_length S G, ?_⟩
  decide

theorem c1_scoring_two_pass_witness :
    hitCount 'T' "TOOTH".toList (scoreGuess "SATIN".toList "TOOTH".toList) ≤
      countLetter 'T' "SATIN".toList ∧
    scoreGuess "SATIN".toList "TOOTH".toList =
      [CordleCell.yellow, .gray, .gray, .gray, .gray] :=
  ⟨(c1_scoring_two_pass "SATIN".toList "TOOTH".toList (by decide)).1 'T',
    (c1_scoring_two_pass "SATIN".toList "TOOTH".toList (by decide)).2.2⟩

/-- C5: `whoseTurn` is the pure parity function of `guesses.length` and
`firstPlayer` the spec describes (acting slot = `firstPlayer` at even counts,
the other slot at odd counts), and any two states agreeing on those two
fields — nothing else — get the same answer, so repeated calls without a new
guess are stable. -/
theorem c5_whoseTurn_parity (g g2 : CordleGame) :
    whoseTurn g = (if g.state.firstPlayer = CordlePlayerNumber.player1 then
        (if Even g.state.guesses.length then .player1 else .player2)
      else (if Even g.state.guesses.length then .player2 else .player1)) ∧
    (g.state.firstPlayer = g2.state.firstPlayer →
      g.state.guesses.length = g2.state.guesses.length → whoseTurn g = whoseTurn g2) := by
  constructor
  · unfold whoseTurn
    rcases hfp : g.state.firstPlayer <;> simp [Nat.even_iff]
  · intro h1 h2
    unfold whoseTurn
    rw [h1, h2]

theorem c5_whoseTurn_parity_witness : whoseTurn c5GameA = whoseTurn c5GameB :=
  (c5_whoseTurn_parity c5GameA c5GameB).2 rfl rfl

/-- C7 (amended): in every state reachable by join/leave/setDifficulty/start
and by guesses whose `guessNumber` equals the pre-application
`guesses.length + 1` (the discipline the client follows; the engine itself
does not check it), `evaluatedRows[i]` is defined exactly when `guesses[i]`
is defined. -/
theorem c7_rows_defined (g : CordleGame) (h : ReachWF g) (i : Nat) :
    rowDefined g i ↔ i < g.state.guesses.length :=
  boardInv_defined (reachWF_boardInv h) i

theorem c7_rows_defined_witness :
    rowDefined c7WfGame 0 ↔ 0 < c7WfGame.state.guesses.length :=
  c7_rows_defined c7WfGame
    (@ReachWF.move_ok c7Step4 c7WfGame (mkGuess "A" 1)
      (@ReachWF.start_ok c7Step3 c7Step4 "B" (fun _ => [])
        (@ReachWF.start_ok c7Step2 c7Step3 "A" (fun _ => [])
          (@ReachWF.join_ok c7Step1 c7Step2 "B"
            (@ReachWF.join_ok (newCordleGame none) c7Step1 "A" ReachWF.init (by decide))
            (by decide))
          (by decide))
        (by decide))
      (by decide) (by decide)) 0

/-- C7 counterexample: over unrestricted operation sequences the claimed
biconditional fails — a first accepted guess carrying `guessNumber = 2` is
stored at row index 1, leaving `evaluatedRows[0]` a hole while `guesses[0]`
is defined. -/
theorem c7_misnumbered_guess :
    c7Trace.isOk = true ∧
    (gameOf c7Trace).state.guesses.length = 1 ∧
    (gameOf c7Trace).state.guessesEvaluated.get? 0 = some none ∧
    ¬ (rowDefined (gameOf c7Trace) 0 ↔ 0 < (gameOf c7Trace).state.guesses.length) := by
  refine ⟨by decide, by decide, by decide, fun hiff => ?_⟩
  obtain ⟨r, hr⟩ := hiff.mpr (by decide)
  have h0 : (gameOf c7Trace).state.guessesEvaluated.get? 0 = some none := by decide
  rw [h0] at hr
  exact Option.noConfusion (Option.some.inj hr)

/-- C8: a leave by a player occupying neither slot fails with
`PlayerNotInGame` whatever the status (the public wrapper, modelled from the
spec, validates membership before `_leave` runs, so the `OVER` early return
cannot bypass it), and a leave by an occupant of an `OVER` game is a no-op
beyond that validation: the state is returned unchanged. -/
theorem c8_leave_membership (g : CordleGame) (p : PlayerID) :
    (g.state.player1 ≠ some p → g.state.player2 ≠ some p →
      leave p g = .error (.playerNotInGame, g)) ∧
    (g.state.status = .over → (g.state.player1 = some p ∨ g.state.player2 = some p) →
      leave p g = .ok g) := by
  constructor
  · intro h1 h2
    unfold leave
    rw [if_neg]
    rintro (h | h)
    · exact h1 h
    · exact h2 h
  · intro hover hmem
    unfold leave leaveGame
    rw [if_pos hmem, if_pos hover]

theorem c8_leave_membership_witness :
    leave "Z" inProgressGame = .error (.playerNotInGame, inProgressGame) ∧
    leave "B" (gameOf (leaveGame "A" inProgressGame)) =
      .ok (gameOf (leaveGame "A" inProgressGame)) :=
  ⟨(c8_leave_membership inProgressGame "Z").1 (by decide) (by decide),
    (c8_leave_membership (gameOf (leaveGame "A" inProgressGame)) "B").2 (by decide) (by decide)⟩

/-- C9: every failing operation is all-or-nothing — whenever join, leave,
start or applyMove raises a typed error, the state carried at the throw (and
so the game after the call, under JavaScript exception semantics) is exactly
the pre-call state. -/
theorem c9_all_or_nothing (g g2 : CordleGame) (e : Err) (p : PlayerID) (m : CordleGuess)
    (draw : CordleDifficulty → List Char) :
    (join p g = .error (e, g2) → g2 = g) ∧
    (leave p g = .error (e, g2) → g2 = g) ∧
    (startGame draw p g = .error (e, g2) → g2 = g) ∧
    (applyMove m g = .error (e, g2) → g2 = g) := by
  refine ⟨fun h => ?_, fun h => ?_, fun h => ?_, fun h => ?_⟩
  · unfold join at h
    split_ifs at h
    · injection h with h
      injection h with h1 h2
      exact h2.symm
    · cases hj : joinAssign p g with
      | none =>
        rw [hj] at h
        simp only [joinFinish] at h
        injection h with h
        injection h with h1 h2
        exact h2.symm
      | some s =>
        rw [hj] at h
        simp only [joinFinish] at h
        exact Except.noConfusion h
  · unfold leave at h
    split_ifs at h with hmem
    · unfold leaveGame at h
      split_ifs at h with ho
      cases hr : removePlayerFrom p g.state with
        | none =>
          rw [hr] at h
          simp only [leaveRemoved] at h
          injection h with h
          injection h with h1 h2
          exact h2.symm
        | some q =>
          obtain ⟨n, s⟩ := q
          rw [hr] at h
          simp only [leaveRemoved] at h
          obtain ⟨hst, -, -, -⟩ := removePlayerFrom_state hr
          cases hs : s.status
          all_goals rw [hs] at h
          all_goals simp only [leaveSwitch] at h
          · exact Except.noConfusion h
          · exact Except.noConfusion h
          · exact Except.noConfusion h
          · rw [hs] at hst; exact absurd hst.symm ho
    · injection h with h
      injection h with h1 h2
      exact h2.symm
  · unfold startGame startBoth at h
    split_ifs at h <;>
      (injection h with h; injection h with h1 h2; exact h2.symm)
  · unfold applyMove at h
    split_ifs at h <;>
      (injection h with h; injection h with h1 h2; exact h2.symm)

theorem c9_all_or_nothing_witness :
    join "C" twoJoined = .error (.gameFull, twoJoined) ∧ twoJoined = twoJoined :=
  ⟨by decide, (c9_all_or_nothing twoJoined twoJoined .gameFull "C"
    (mkGuess "C" 1) (fun _ => [])).1 (by decide)⟩

/-- C4: a leave by a slot occupant while the game is in progress ends the
game — status `Over`, winner the other slot's occupant as it stands after
the removal (absent when that slot is empty, so `winner` is then unset) —
while a leave during `WaitingForPlayers` or `WaitingToStart` leaves the
status at (or returns it to) `WaitingForPlayers` and never touches the
winner. -/
theorem c4_leave_endings (g : CordleGame) (p : PlayerID) :
    (g.state.status = .inProgress → g.state.player1 = some p →
      leave p g = .ok { g with state :=
        { g.state with
            player1 := none
            player1Ready := false
            status := .over
            winner := g.state.player2 } }) ∧
    (g.state.status = .inProgress → g.state.player1 ≠ some p → g.state.player2 = some p →
      leave p g = .ok { g with state :=
        { g.state with
            player2 := none
            player2Ready := false
            status := .over
            winner := g.state.player1 } }) ∧
    ((g.state.status = .waitingForPlayers ∨ g.state.status = .waitingToStart) →
      (g.state.player1 = some p ∨ g.state.player2 = some p) →
      Except.map (fun q => (q.state.status, q.state.winner)) (leave p g)
        = .ok (GameStatus.waitingForPlayers, g.state.winner)) := by
  refine ⟨fun hst hp1 => ?_, fun hst hp1 hp2 => ?_, fun hst hmem => ?_⟩
  · unfold leave
    rw [if_pos (Or.inl hp1)]
    unfold leaveGame
    rw [if_neg (by rw [hst]; intro hh; exact GameStatus.noConfusion hh)]
    unfold removePlayerFrom
    rw [if_pos hp1]
    simp only [leaveRemoved]
    rw [show ({ g.state with player1 := none, player1Ready := false } :
        CordleGameState).status = g.state.status from rfl, hst]
    simp only [leaveSwitch]
    rfl
  · unfold leave
    rw [if_pos (Or.inr hp2)]
    unfold leaveGame
    rw [if_neg (by rw [hst]; intro hh; exact GameStatus.noConfusion hh)]
    unfold removePlayerFrom
    rw [if_neg hp1, if_pos hp2]
    simp only [leaveRemoved]
    rw [show ({ g.state with player2 := none, player2Ready := false } :
        CordleGameState).status = g.state.status from rfl, hst]
    simp only [leaveSwitch]
    rfl
  · unfold leave
    rw [if_pos hmem]
    unfold leaveGame
    have hno : ¬ g.state.status = .over := by
      rcases hst with hst | hst <;> rw [hst] <;> intro hh <;> exact GameStatus.noConfusion hh
    rw [if_neg hno]
    cases hq : removePlayerFrom p g.state with
    | none =>
      exfalso
      unfold removePlayerFrom at hq
      split_ifs at hq with hq1 hq2
      rcases hmem with hp | hp
      · exact hq1 hp
      · exact hq2 hp
    | some q =>
      obtain ⟨n, s⟩ := q
      obtain ⟨hsst, -, -, hw⟩ := removePlayerFrom_state hq
      simp only [leaveRemoved]
      rcases hst with hst | hst <;>
        rw [hsst, hst] <;> simp only [leaveSwitch, Except.map] <;> rw [hw]

theorem c4_leave_endings_witness :
    leave "A" inProgressGame = .ok { inProgressGame with state :=
      { inProgressGame.state with
          player1 := none
          player1Ready := false
          status := .over
          winner := inProgressGame.state.player2 } } :=
  (c4_leave_endings inProgressGame "A").1 (by decide) (by decide)

/-- C10: an empty guessed word that reaches `applyMove` while the game is in
progress and on the guesser's turn is accepted and scored: both scoring
passes run zero iterations, the stored row is empty, the all-Green check
holds vacuously, the status becomes `Over` and the guesser is recorded as
winner — no length validation happens in this layer. -/
theorem c10_empty_guess (g : CordleGame) (m : CordleGuess)
    (h1 : g.state.status = .inProgress)
    (h2 : (if whoseTurn g = .player1 then g.state.player1 else g.state.player2)
      = some m.player)
    (h3 : m.guessedWord = []) :
    applyMove m g = .ok { g with state :=
      { g.state with
          guesses := g.state.guesses ++ [m]
          guessesEvaluated := jsSet g.state.guessesEvaluated (m.guessNumber - 1) []
          status := .over
          winner := some m.player } } := by
  unfold applyMove
  rw [if_pos h1, if_pos h2]
  unfold applyGuess applyGuessState
  rw [h3, scoreGuess_nil]
  unfold checkWin
  rw [if_pos (by rfl)]
  unfold checkDraw
  rw [if_neg (fun hc => Option.noConfusion hc.2)]

theorem c10_empty_guess_witness :
    applyMove { player := "A", guessedWord := [], guessNumber := 1 } inProgressGame =
      .ok { inProgressGame with state :=
        { inProgressGame.state with
            guesses := inProgressGame.state.guesses ++
              [{ player := "A", guessedWord := [], guessNumber := 1 }]
            guessesEvaluated := jsSet inProgressGame.state.guessesEvaluated 0 []
            status := .over
            winner := some "A" } } :=
  c10_empty_guess inProgressGame { player := "A", guessedWord := [], guessNumber := 1 }
    (by decide) (by decide) rfl

theorem set_ready1_eta {s : CordleGameState} (h : s.player1Ready = true) :
    { s with player1Ready := true } = s := by
  cases s; simp_all

theorem set_ready2_eta {s : CordleGameState} (h : s.player2Ready = true) :
    { s with player2Ready := true } = s := by
  cases s; simp_all

theorem set_first_eta {s : CordleGameState} (h : s.firstPlayer = .player1) :
    { s with firstPlayer := .player1 } = s := by
  cases s; simp_all

theorem set_status_eta (s : CordleGameState) (h : s.status = .waitingToStart) :
    { s with status := .waitingToStart } = s := by
  cases s; simp_all

theorem markReady_eta (p : PlayerID) (s : CordleGameState)
    (h1 : s.player1 = some p → s.player1Ready = true)
    (h2 : s.player2 = some p → s.player2Ready = true) : markReady p s = s := by
  unfold markReady markReady2
  by_cases ha : s.player1 = some p
  · rw [if_pos ha, set_ready1_eta (h1 ha)]
    by_cases hb : s.player2 = some p
    · rw [if_pos hb, set_ready2_eta (h2 hb)]
    · rw [if_neg hb]
  · rw [if_neg ha]
    by_cases hb : s.player2 = some p
    · rw [if_pos hb, set_ready2_eta (h2 hb)]
    · rw [if_neg hb]

theorem recomputeFirst_eta (g : CordleGame) (s : CordleGameState)
    (h : ¬(g.preferredPlayer1 = s.player1 ∨ g.preferredPlayer2 = s.player2) →
      s.firstPlayer = .player1) : recomputeFirst g s = s := by
  unfold recomputeFirst
  by_cases hc : g.preferredPlayer1 = s.player1 ∨ g.preferredPlayer2 = s.player2
  · rw [if_pos hc]
  · rw [if_neg hc]
    exact set_first_eta (h hc)

/-- C2 (amended): a repeated `start` by an already-ready occupant of a
`WAITING_TO_START` game raises no error and leaves slots, ready flags,
status, difficulty, board and winner unchanged — but it re-runs both the
`firstPlayer` recomputation and the word draw.  When the slot-wise
preferred-id comparison matches on at least one slot, `firstPlayer` keeps
its value and the secret is re-drawn and replaced exactly when the caller
occupies the `firstPlayer` slot; when neither slot-wise comparison matches
(reachable: the caller's partner leaves after the first ready and a
newcomer joins), `firstPlayer` is forced to `Player1` and the secret is
re-drawn and replaced exactly when the caller occupies slot 1.  The
hypotheses record invariants of reachable `WAITING_TO_START` states: both
slots are occupied by distinct players (`_join` is the only writer and
refuses occupants), and the two ready flags are never both set while the
status is still `WAITING_TO_START` (every `start` call ends by promoting a
both-ready game to `IN_PROGRESS`, and vacating a slot clears its flag). -/
theorem c2_repeat_start (g : CordleGame) (draw : CordleDifficulty → List Char) (p : PlayerID)
    (hst : g.state.status = .waitingToStart)
    (hp1 : g.state.player1.isSome = true)
    (hp2 : g.state.player2.isSome = true)
    (hne : g.state.player1 ≠ g.state.player2)
    (hready : (g.state.player1 = some p ∧ g.state.player1Ready = true) ∨
      (g.state.player2 = some p ∧ g.state.player2Ready = true))
    (hnotboth : ¬(g.state.player1Ready = true ∧ g.state.player2Ready = true)) :
    ((g.preferredPlayer1 = g.state.player1 ∨ g.preferredPlayer2 = g.state.player2) →
      startGame draw p g = .ok
        { g with state :=
          { g.state with cordle :=
              (if (g.state.firstPlayer = .player1 ∧ some p = g.state.player1) ∨
                  (g.state.firstPlayer = .player2 ∧ some p = g.state.player2) then
                some ((selectedWord draw g.state).map Char.toUpper)
              else g.state.cordle) } }) ∧
    (¬(g.preferredPlayer1 = g.state.player1 ∨ g.preferredPlayer2 = g.state.player2) →
      startGame draw p g = .ok
        { g with state :=
          { g.state with
              firstPlayer := CordlePlayerNumber.player1
              cordle :=
                (if some p = g.state.player1 then
                  some ((selectedWord draw g.state).map Char.toUpper)
                else g.state.cordle) } }) := by
  have hmem : g.state.player1 = some p ∨ g.state.player2 = some p := by
    rcases hready with ⟨h, -⟩ | ⟨h, -⟩
    · exact Or.inl h
    · exact Or.inr h
  have hmr : markReady p g.state = g.state := by
    apply markReady_eta
    · intro ha
      rcases hready with ⟨-, hrdy⟩ | ⟨hocc, -⟩
      · exact hrdy
      · exact absurd (ha.trans hocc.symm) hne
    · intro hb
      rcases hready with ⟨hocc, -⟩ | ⟨-, hrdy⟩
      · exact absurd (hocc.trans hb.symm) hne
      · exact hrdy
  refine ⟨fun hpref => ?_, fun hpref => ?_⟩
  · unfold startGame
    rw [if_pos hst, if_pos hmem, hmr]
    unfold recomputeFirst
    rw [if_pos hpref]
    unfold startBoth
    rw [if_pos ⟨hp1, hp2⟩]
    have hstate : setStartStatus (drawPhase draw p g.state) =
        { g.state with cordle :=
          (if (g.state.firstPlayer = .player1 ∧ some p = g.state.player1) ∨
              (g.state.firstPlayer = .player2 ∧ some p = g.state.player2) then
            some ((selectedWord draw g.state).map Char.toUpper)
          else g.state.cordle) } := by
      unfold setStartStatus
      rw [if_neg (by simp only [drawPhase_ready1, drawPhase_ready2]; exact hnotboth)]
      unfold drawPhase
      by_cases hdc : (g.state.firstPlayer = CordlePlayerNumber.player1 ∧
          some p = g.state.player1) ∨
          (g.state.firstPlayer = CordlePlayerNumber.player2 ∧ some p = g.state.player2)
      · rw [if_pos hdc, if_pos hdc]
        exact set_status_eta _ hst
      · rw [if_neg hdc, if_neg hdc]
        exact set_status_eta _ hst
    rw [hstate]
  · obtain ⟨gp1, gp2, s0⟩ := g
    obtain ⟨stat, p1v, p2v, r1, r2, fpv, diff, cor, gu, ge, win⟩ := s0
    dsimp only at hst hp1 hp2 hne hready hnotboth hpref hmem hmr ⊢
    subst hst
    unfold startGame
    dsimp only
    rw [if_pos rfl, if_pos hmem, hmr]
    unfold recomputeFirst
    dsimp only
    rw [if_neg hpref]
    unfold startBoth
    dsimp only
    rw [if_pos ⟨hp1, hp2⟩]
    unfold setStartStatus drawPhase
    dsimp only
    by_cases hdx : some p = p1v
    · rw [if_pos (Or.inl ⟨rfl, hdx⟩)]
      dsimp only
      rw [if_neg hnotboth, if_pos hdx]
      all_goals exact rfl
    · have hcond : ¬((CordlePlayerNumber.player1 = CordlePlayerNumber.player1 ∧
          some p = p1v) ∨
          (CordlePlayerNumber.player1 = CordlePlayerNumber.player2 ∧ some p = p2v)) := by
        rintro (⟨-, h⟩ | ⟨hf, -⟩)
        · exact hdx h
        · exact CordlePlayerNumber.noConfusion hf
      rw [if_neg hcond]
      dsimp only
      rw [if_neg hnotboth, if_neg hdx]

theorem c2_repeat_start_witness :
    startGame (fun _ => "bread".toList) "X" c2ChurnReady = .ok
      { c2ChurnReady with state :=
        { c2ChurnReady.state with
            firstPlayer := CordlePlayerNumber.player1
            cordle :=
              (if some "X" = c2ChurnReady.state.player1 then
                some ((selectedWord (fun _ => "bread".toList) c2ChurnReady.state).map
                  Char.toUpper)
              else c2ChurnReady.state.cordle) } } :=
  (c2_repeat_start c2ChurnReady (fun _ => "bread".toList) "X" (by decide) (by decide)
    (by decide) (by decide) (by decide) (by decide)).2 (by decide)

/-- C2 counterexample: two concrete runs refute the original no-op claim.
In `c2Ready` (difficulty Easy, slot-1 occupant `A` ready and designated
first player, secret APPLE stored), calling `start` again for `A` succeeds
but replaces the secret with the freshly drawn BREAD.  In `c2ChurnReady`
(ready `X` in slot 1, `firstPlayer` still `Player2` after `X`'s partner
left and newcomer `R` joined, secret still unset), the repeated `start` by
the already-ready `X` even flips `firstPlayer` from `Player2` to `Player1`
and stores a drawn word — so the repeated call is not a no-op and the
secret word is not assigned exactly once. -/
theorem c2_secret_redrawn :
    c2Ready.state.status = .waitingToStart ∧
    c2Ready.state.player1 = some "A" ∧
    c2Ready.state.player1Ready = true ∧
    c2Ready.state.cordle = some "APPLE".toList ∧
    startGame (fun _ => "bread".toList) "A" c2Ready = .ok c2Repeat ∧
    c2Repeat.state.cordle = some "BREAD".toList ∧
    c2Repeat ≠ c2Ready ∧
    c2ChurnReady.state.status = .waitingToStart ∧
    c2ChurnReady.state.player1 = some "X" ∧
    c2ChurnReady.state.player1Ready = true ∧
    c2ChurnReady.state.firstPlayer = .player2 ∧
    c2ChurnReady.state.cordle = none ∧
    (startGame (fun _ => "bread".toList) "X" c2ChurnReady).isOk = true ∧
    (gameOf (startGame (fun _ => "bread".toList) "X" c2ChurnReady)).state.firstPlayer
      = .player1 ∧
    (gameOf (startGame (fun _ => "bread".toList) "X" c2ChurnReady)).state.cordle
      = some "BREAD".toList := by
  decide

/-- C3 (amended): at start time `firstPlayer` is forced to `Player1` exactly
when the slot-wise comparison fails on both slots — preferred-slot-1 id
differs from the current slot-1 occupant and preferred-slot-2 id differs
from the current slot-2 occupant (strict `===`, so two absent values
compare equal); otherwise the constructed value — the opposite of the prior
game's `firstPlayer`, `Player1` when there was no prior game — is kept.
The comparison is not "either occupant against either preferred id". -/
theorem c3_first_player_rule (g : CordleGame) (draw : CordleDifficulty → List Char)
    (p : PlayerID)
    (hst : g.state.status = .waitingToStart)
    (hmem : g.state.player1 = some p ∨ g.state.player2 = some p) :
    (startGame draw p g).isOk = true ∧
    (gameOf (startGame draw p g)).state.firstPlayer =
      (if g.preferredPlayer1 = g.state.player1 ∨ g.preferredPlayer2 = g.state.player2
       then g.state.firstPlayer else .player1) ∧
    ∀ prior : Option CordleGame, (newCordleGame prior).state.firstPlayer =
      (match prior with
       | none => CordlePlayerNumber.player1
       | some q => getOtherPlayerNumber q.state.firstPlayer) := by
  unfold startGame
  rw [if_pos hst, if_pos hmem]
  unfold startBoth
  have hfp2 : (recomputeFirst g (markReady p g.state)).firstPlayer =
      (if g.preferredPlayer1 = g.state.player1 ∨ g.preferredPlayer2 = g.state.player2
       then g.state.firstPlayer else .player1) := by
    rw [recomputeFirst_firstPlayer]
    simp only [markReady_player1, markReady_player2, markReady_firstPlayer]
  refine ⟨?_, ?_, ?_⟩
  · split_ifs <;> rfl
  · by_cases hboth : (recomputeFirst g (markReady p g.state)).player1.isSome = true ∧
        (recomputeFirst g (markReady p g.state)).player2.isSome = true
    · rw [if_pos hboth]
      simpa [gameOf] using hfp2
    · rw [if_neg hboth]
      simpa [gameOf] using hfp2
  · intro prior
    rcases prior with - | q <;> rfl

theorem c3_first_player_rule_witness :
    (startGame (fun _ => []) "C" c3Joined).isOk = true ∧
    (gameOf (startGame (fun _ => []) "C" c3Joined)).state.firstPlayer =
      (if c3Joined.preferredPlayer1 = c3Joined.state.player1 ∨
          c3Joined.preferredPlayer2 = c3Joined.state.player2
       then c3Joined.state.firstPlayer else .player1) :=
  ⟨(c3_first_player_rule c3Joined (fun _ => []) "C" (by decide) (by decide)).1,
    (c3_first_player_rule c3Joined (fun _ => []) "C" (by decide) (by decide)).2.1⟩

/-- C3 counterexample: in the rematch game `c3Joined` the returning player
`A` occupies slot 2 while being the preferred id for slot 1, so by the
claim's wording ("neither current slot occupant matches either preferred
id") `firstPlayer` must not be forced — yet the code's slot-wise comparison
fails on both slots and `start` forces `Player1`, overriding the
constructed `Player2`. -/
theorem c3_forced_despite_match :
    specFreshPairing c3Joined = false ∧
    c3Joined.state.status = .waitingToStart ∧
    c3Joined.state.player1 = some "C" ∧
    c3Joined.state.player2 = some "A" ∧
    c3Joined.preferredPlayer1 = some "A" ∧
    c3Joined.preferredPlayer2 = some "B" ∧
    c3Joined.state.firstPlayer = .player2 ∧
    (startGame (fun _ => []) "C" c3Joined).isOk = true ∧
    (gameOf (startGame (fun _ => []) "C" c3Joined)).state.firstPlayer = .player1 := by
  decide

/-- C6: the guess limit is not an invariant of the reachable state space.
In the concrete run `c6Trace` a game that went `OVER` through a mid-play
leave (recording `B` as winner) is revived by a fresh join and start; the
stale board then accepts a sixth guess without triggering the draw check
(`winner` is still set) and a seventh guess after that: the run ends with
seven accepted guesses and status still `IN_PROGRESS`, where the claim
requires at most six guesses and `GameNotInProgress` on the seventh. -/
theorem c6_seventh_guess_accepted :
    c6Trace.isOk = true ∧
    (gameOf c6Trace).state.guesses.length = 7 ∧
    (gameOf c6Trace).state.status = .inProgress ∧
    (gameOf c6Trace).state.winner = some "B" := by
  decide
